import Mathlib

/-!
Shallow embedding of the record reconciliation and search-index synthesis
engine of the ASIAAN feature-layer manager (src/main.py) and of the PDF
text-fitting helper (src/public_pdf.py).

Python attribute values are modelled by the inductive type PyVal
(the None constant, integers, strings, booleans); attribute maps are
association lists with first-match lookup and in-place-update assignment,
matching the semantics of Python dict objects with unique keys.
Network collaborators (the ArcGIS feature store, the keyword table, the
geocoder) return already-decoded data in the source, so their payloads
are parameters of the embedded functions.
-/

/-- A Python scalar value as it occurs in ArcGIS attribute maps:
None, an int, a str, or a bool. -/
inductive PyVal : Type where
  | none : PyVal
  | pyInt : Int → PyVal
  | pyStr : String → PyVal
  | pyBool : Bool → PyVal
deriving DecidableEq, Repr

/-- An attribute map (a Python dict from field name to value). -/
abbrev AttrMap := List (String × PyVal)

/-- The keyword dictionary: service-flag name to ordered phrase list. -/
abbrev KeyDict := List (String × List String)

/-- Python dict lookup `d.get(k)` restricted to present keys: the value of
the first (and in a dict, only) entry with the given key. -/
def getAttr : AttrMap → String → Option PyVal
  | [], _ => Option.none
  | (a, b) :: t, k => if a = k then some b else getAttr t k

/-- Python dict assignment `d[k] = v`: replaces the value in place when the
key is present (keeping its position), appends otherwise. -/
def setAttr : AttrMap → String → PyVal → AttrMap
  | [], k, v => [(k, v)]
  | (a, b) :: t, k, v => if a = k then (k, v) :: t else (a, b) :: setAttr t k v

/-- Lookup in the keyword dictionary. -/
def getEntry : KeyDict → String → Option (List String)
  | [], _ => Option.none
  | (a, b) :: t, k => if a = k then some b else getEntry t k

/-- Python dict assignment for the keyword dictionary. -/
def setEntry : KeyDict → String → List String → KeyDict
  | [], k, v => [(k, v)]
  | (a, b) :: t, k, v => if a = k then (k, v) :: t else (a, b) :: setEntry t k v

/-- Digit-emitting loop for the decimal form of a natural number. The fuel
argument only bounds the recursion depth; any fuel above the number itself
is adequate, and the wrapper below always supplies an adequate amount. -/
def natReprGo (fuel : Nat) (n : Nat) : List Char :=
  match fuel with
  | 0 => []
  | fuel + 1 =>
    if n < 10 then [Nat.digitChar n]
    else natReprGo fuel (n / 10) ++ [Nat.digitChar (n % 10)]

/-- Decimal digit string of a natural number, as produced by the Python
str builtin (no sign, no leading zeros except for 0 itself). -/
def natRepr (n : Nat) : List Char := natReprGo (n + 1) n

/-- Python str of an int: decimal digits, with a leading minus sign for
negative numbers. -/
def intRepr : Int → String
  | Int.ofNat m => String.mk (natRepr m)
  | Int.negSucc m => String.mk ('-' :: natRepr (m + 1))

/-- Python str of a PyVal (the repr used when values are appended to the
search-token list). -/
def pyStrOf : PyVal → String
  | PyVal.none => "None"
  | PyVal.pyInt n => intRepr n
  | PyVal.pyStr s => s
  | PyVal.pyBool b => if b then "True" else "False"

/-- Python truthiness of a PyVal (the `if val:` test). -/
def pyTruthy : PyVal → Bool
  | PyVal.none => false
  | PyVal.pyInt n => !(n == 0)
  | PyVal.pyStr s => !(s == "")
  | PyVal.pyBool b => b

/-- Python `==` comparison of a PyVal against the int 1
(True == 1 holds in Python; no string equals an int). -/
def pyEqOne : PyVal → Bool
  | PyVal.pyInt n => n == 1
  | PyVal.pyBool b => b
  | _ => false

/-- Python `is True` test. -/
def pyIsTrue : PyVal → Bool
  | PyVal.pyBool b => b
  | _ => false

/-- Python str.strip(): remove whitespace from both ends. -/
def pyStrip (s : String) : String :=
  String.mk (((s.data.dropWhile Char.isWhitespace).reverse.dropWhile
    Char.isWhitespace).reverse)

-- ──────────────────────────────────────────────────────────────────────
-- Phone normalizer (src/main.py, normalize_phone)
-- ──────────────────────────────────────────────────────────────────────

/-- The validation message of normalize_phone. -/
def phoneErrMsg : String := "📞 Invalid phone number. Enter 10 digits."

/-- The digit characters of a string, in order: the model of
re.sub of the non-digit class with the empty string. -/
def digitsOf (s : String) : List Char := s.data.filter Char.isDigit

/-- The f-string of normalize_phone: digits 0-3, dash, 3-6, dash, 6-10. -/
def phoneFormat (ds : List Char) : String :=
  String.mk (ds.take 3 ++ '-' :: ((ds.drop 3).take 3 ++ '-' :: (ds.drop 6).take 4))

/-- normalize_phone from src/main.py: empty input passes through with no
error; exactly 10 digits are reformatted with dashes; anything else is
returned unchanged with a validation message. -/
def normalize_phone (raw : String) : String × Option String :=
  if raw = "" then ("", Option.none)
  else
    let digits := digitsOf raw
    if digits.length = 10 then (phoneFormat digits, Option.none)
    else (raw, some phoneErrMsg)

-- ──────────────────────────────────────────────────────────────────────
-- Helper lemmas about digits and the dash format
-- ──────────────────────────────────────────────────────────────────────

theorem digitsOf_all_digits (s : String) : ∀ c ∈ digitsOf s, c.isDigit := by
  intro c hc
  exact (List.mem_filter.mp hc).2

theorem filter_digits_of_all {l : List Char} (h : ∀ c ∈ l, c.isDigit) :
    l.filter Char.isDigit = l :=
  List.filter_eq_self.mpr h

theorem digitsOf_phoneFormat {ds : List Char} (hall : ∀ c ∈ ds, c.isDigit)
    (hlen : ds.length = 10) : digitsOf (phoneFormat ds) = ds := by
  have hdash : Char.isDigit '-' = false := by decide
  have htake : ∀ n, ∀ c ∈ ds.take n, c.isDigit := by
    intro n c hc; exact hall c (List.mem_of_mem_take hc)
  have hdroptake : ∀ n m, ∀ c ∈ (ds.drop n).take m, c.isDigit := by
    intro n m c hc
    exact hall c (List.mem_of_mem_drop (List.mem_of_mem_take hc))
  show (ds.take 3 ++ '-' :: ((ds.drop 3).take 3 ++ '-' :: (ds.drop 6).take 4)).filter
      Char.isDigit = ds
  rw [List.filter_append, List.filter_cons_of_neg (by simp [hdash]),
    List.filter_append, List.filter_cons_of_neg (by simp [hdash]),
    filter_digits_of_all (htake 3), filter_digits_of_all (hdroptake 3 3),
    filter_digits_of_all (hdroptake 6 4)]
  have h1 : (ds.drop 6).take 4 = ds.drop 6 := by
    apply List.take_of_length_le
    simp [List.length_drop, hlen]
  rw [h1]
  have h2 : (ds.drop 3).take 3 ++ ds.drop 6 = ds.drop 3 := by
    have := List.take_append_drop 3 (ds.drop 3)
    rwa [List.drop_drop] at this
  rw [h2, List.take_append_drop]

theorem phoneFormat_length {ds : List Char} (hlen : ds.length = 10) :
    (phoneFormat ds).data.length = 12 := by
  show (ds.take 3 ++ '-' :: ((ds.drop 3).take 3 ++ '-' :: (ds.drop 6).take 4)).length = 12
  simp [List.length_append, List.length_take, List.length_drop, hlen]

theorem phoneFormat_ne_empty {ds : List Char} (hlen : ds.length = 10) :
    phoneFormat ds ≠ "" := by
  intro h
  have : (phoneFormat ds).data.length = 0 := by rw [h]; rfl
  rw [phoneFormat_length hlen] at this
  omega

/-- Claim C6: normalize_phone strips all non-digit characters; with exactly
10 digits it returns them dash-formatted (the output containing exactly the
same digits) and no error; with any other digit count on non-empty input it
returns the raw input together with the validation message; empty input
returns the empty string with no error. -/
theorem c6_normalize_phone_spec : ∀ raw : String,
    (raw = "" → normalize_phone raw = ("", Option.none))
    ∧ (raw ≠ "" → (digitsOf raw).length = 10 →
        normalize_phone raw = (phoneFormat (digitsOf raw), Option.none)
        ∧ digitsOf (phoneFormat (digitsOf raw)) = digitsOf raw)
    ∧ (raw ≠ "" → (digitsOf raw).length ≠ 10 →
        normalize_phone raw = (raw, some phoneErrMsg)) := by
  intro raw
  refine ⟨?_, ?_, ?_⟩
  · intro h; simp [normalize_phone, h]
  · intro hne hlen
    constructor
    · simp [normalize_phone, hne, hlen]
    · exact digitsOf_phoneFormat (digitsOf_all_digits raw) hlen
  · intro hne hlen
    simp [normalize_phone, hne, hlen]

theorem c6_witness :
    normalize_phone "" = ("", Option.none)
    ∧ normalize_phone "1234567890" = ("123-456-7890", Option.none)
    ∧ normalize_phone "555-12" = ("555-12", some phoneErrMsg) := by
  refine ⟨(c6_normalize_phone_spec "").1 rfl, ?_, ?_⟩
  · have h := ((c6_normalize_phone_spec "1234567890").2.1 (by decide) (by decide)).1
    rw [h]; rfl
  · exact (c6_normalize_phone_spec "555-12").2.2 (by decide) (by decide)

/-- Claim C10: phone normalization is idempotent on accepted outputs: when
normalize_phone accepts an input (returns a value with no error), running it
again on the returned value gives the same value, again with no error. -/
theorem c10_normalize_phone_idempotent :
    ∀ raw fmt : String, normalize_phone raw = (fmt, Option.none) →
      normalize_phone fmt = (fmt, Option.none) := by
  intro raw fmt h
  by_cases hraw : raw = ""
  · simp [normalize_phone, hraw] at h
    simp [normalize_phone, ← h]
  · by_cases hlen : (digitsOf raw).length = 10
    · simp [normalize_phone, hraw, hlen] at h
      have hfmt : fmt = phoneFormat (digitsOf raw) := h.symm
      subst hfmt
      have hd : digitsOf (phoneFormat (digitsOf raw)) = digitsOf raw :=
        digitsOf_phoneFormat (digitsOf_all_digits raw) hlen
      have hne := phoneFormat_ne_empty hlen
      simp [normalize_phone, hne, hd, hlen]
    · simp [normalize_phone, hraw, hlen] at h

theorem c10_witness :
    normalize_phone "123-456-7890" = ("123-456-7890", Option.none) :=
  c10_normalize_phone_idempotent "1234567890" "123-456-7890" (by decide)

-- ──────────────────────────────────────────────────────────────────────
-- Fixed service-flag list (src/main.py, binary_fields_list)
-- ──────────────────────────────────────────────────────────────────────

/-- The fixed list of boolean service-availability field names, in the
declared order of binary_fields_list in src/main.py. -/
def binary_fields_list : List String :=
  [ "Home_Health_Services", "Adult_Day_Services", "Benefits_Counseling",
    "Elder_Housing_Resources", "Assisted_Living", "Elder_Abuse",
    "Home_Repair", "Immigration_Assistance", "Long_term_Care_Ombudsman",
    "Long_term_Care_Nursing_Homes", "Senior_Exercise_Programs",
    "Dementia_Support_Programs", "Transportation", "Senior_Centers",
    "Caregiver_Support_Services", "Case_Management", "Congregate_Meals",
    "Financial_Counseling", "Health_Education_Workshops",
    "Home_Delivered_Meals", "Hospice_Care", "Technology_Training",
    "Cultural_Programming", "Mental_Health", "Vaccinations_Screening",
    "Outreach_and_Advocacy", "Lending_Closet", "Independent_Living",
    "Homemakers_Personal_Support", "Independent_Housing" ]

-- ──────────────────────────────────────────────────────────────────────
-- Search-term synthesis (src/main.py, build_search_terms)
-- ──────────────────────────────────────────────────────────────────────

/-- Concatenation of the token lists produced per element (the model of a
loop that extends one accumulator list). -/
def catMaps (f : String → List String) : List String → List String
  | [] => []
  | a :: as => f a ++ catMaps f as

/-- The is_on test of build_search_terms: str of the value equals "1", or
the value == 1, or the value is True. -/
def isOn (flag_val : PyVal) : Bool :=
  (pyStrOf flag_val == "1") || pyEqOne flag_val || pyIsTrue flag_val

/-- Tokens contributed by one service flag: the phrases of the dictionary
entry when the flag is on and the dictionary has an entry, else nothing.
Field lookup uses the Python dict get default None. -/
def svcTokens (dictionary : KeyDict) (attributes : AttrMap) (svc : String) :
    List String :=
  let flag_val := (getAttr attributes svc).getD PyVal.none
  if isOn flag_val then
    match getEntry dictionary svc with
    | some ts => ts
    | Option.none => []
  else []

/-- The always-included descriptive tokens: Agency_Name and Address values,
stringified, when truthy. -/
def baseTokens (attributes : AttrMap) : List String :=
  catMaps (fun base =>
    let val := (getAttr attributes base).getD PyVal.none
    if pyTruthy val then [pyStrOf val] else []) [ "Agency_Name", "Address" ]

/-- The full token list of build_search_terms, before deduplication. -/
def rawTokens (dictionary : KeyDict) (attributes : AttrMap) : List String :=
  baseTokens attributes ++ catMaps (svcTokens dictionary attributes) binary_fields_list

/-- The dedup loop of build_search_terms: a seen set (modelled as the list
of elements added so far) and an output list preserving first occurrences. -/
def pyDedupGo (seen : List String) : List String → List String
  | [] => []
  | t :: ts => if t ∈ seen then pyDedupGo seen ts else t :: pyDedupGo (t :: seen) ts

/-- Remove duplicates while preserving order, as in build_search_terms. -/
def pyDedup (l : List String) : List String := pyDedupGo [] l

/-- build_search_terms from src/main.py. The keyword dictionary, loaded
from the remote table in the source, is a parameter here. -/
def build_search_terms (dictionary : KeyDict) (attributes : AttrMap) : String :=
  String.intercalate ", " (pyDedup (rawTokens dictionary attributes))

-- ──────────────────────────────────────────────────────────────────────
-- First-occurrence deduplication, characterized
-- ──────────────────────────────────────────────────────────────────────

/-- Reference form of first-occurrence deduplication: keep the head, drop
all later copies of it, recurse. -/
def dedupF : List String → List String
  | [] => []
  | t :: ts => t :: dedupF (ts.filter (fun x => x ≠ t))
  termination_by l => l.length
  decreasing_by exact Nat.lt_succ_of_le (List.length_filter_le _ _)

theorem pyDedupGo_eq_dedupF (ts : List String) : ∀ seen : List String,
    pyDedupGo seen ts = dedupF (ts.filter (fun x => decide (x ∉ seen))) := by
  induction ts with
  | nil => intro seen; simp [pyDedupGo, dedupF]
  | cons t ts ih =>
    intro seen
    by_cases h : t ∈ seen
    · rw [List.filter_cons_of_neg (by simp [h])]
      simp only [pyDedupGo, if_pos h]
      exact ih seen
    · rw [List.filter_cons_of_pos (by simp [h])]
      simp only [pyDedupGo, if_neg h]
      rw [dedupF]
      congr 1
      rw [ih (t :: seen), List.filter_filter]
      congr 1
      apply List.filter_congr
      intro x hx
      by_cases h1 : x = t
      · simp [h1]
      · by_cases h2 : x ∈ seen
        · simp [h1, h2]
        · simp [h1, h2]

theorem pyDedup_eq_dedupF (l : List String) : pyDedup l = dedupF l := by
  rw [pyDedup, pyDedupGo_eq_dedupF l []]
  congr 1
  apply List.filter_eq_self.mpr
  intro a _
  simp

theorem mem_dedupF_fuel : ∀ (n : Nat) (l : List String), l.length ≤ n →
    ∀ x, x ∈ dedupF l ↔ x ∈ l := by
  intro n
  induction n with
  | zero =>
    intro l hl x
    have : l = [] := List.length_eq_zero.mp (Nat.le_zero.mp hl)
    subst this; simp [dedupF]
  | succ n ih =>
    intro l hl x
    match l with
    | [] => simp [dedupF]
    | t :: ts =>
      rw [dedupF]
      have hfl : (ts.filter (fun x => x ≠ t)).length ≤ n := by
        have h1 := List.length_filter_le (fun x => x ≠ t) ts
        simp at hl
        omega
      constructor
      · intro hx
        rcases List.mem_cons.mp hx with h | h
        · simp [h]
        · have := (ih _ hfl x).mp h
          have := List.mem_filter.mp this
          exact List.mem_cons.mpr (Or.inr this.1)
      · intro hx
        rcases List.mem_cons.mp hx with h | h
        · simp [h]
        · by_cases hxt : x = t
          · simp [hxt]
          · apply List.mem_cons.mpr
            refine Or.inr ((ih _ hfl x).mpr ?_)
            exact List.mem_filter.mpr ⟨h, by simp [hxt]⟩

theorem mem_dedupF (l : List String) (x : String) : x ∈ dedupF l ↔ x ∈ l :=
  mem_dedupF_fuel l.length l le_rfl x

theorem nodup_dedupF_fuel : ∀ (n : Nat) (l : List String), l.length ≤ n →
    (dedupF l).Nodup := by
  intro n
  induction n with
  | zero =>
    intro l hl
    have : l = [] := List.length_eq_zero.mp (Nat.le_zero.mp hl)
    subst this; simp [dedupF]
  | succ n ih =>
    intro l hl
    match l with
    | [] => simp [dedupF]
    | t :: ts =>
      rw [dedupF]
      have hfl : (ts.filter (fun x => x ≠ t)).length ≤ n := by
        have h1 := List.length_filter_le (fun x => x ≠ t) ts
        simp at hl
        omega
      refine List.nodup_cons.mpr ⟨?_, ih _ hfl⟩
      intro hmem
      have := (mem_dedupF _ t).mp hmem
      have := List.mem_filter.mp this
      simp at this

theorem nodup_dedupF (l : List String) : (dedupF l).Nodup :=
  nodup_dedupF_fuel l.length l le_rfl

-- ──────────────────────────────────────────────────────────────────────
-- The decimal repr of an int equals "1" only for the int 1
-- ──────────────────────────────────────────────────────────────────────

theorem natReprGo_ne_nil : ∀ (fuel n : Nat), n < fuel → natReprGo fuel n ≠ [] := by
  intro fuel
  cases fuel with
  | zero => intro n h; omega
  | succ fuel =>
    intro n _
    by_cases h : n < 10
    · simp [natReprGo, h]
    · simp [natReprGo, h]

theorem natReprGo_eq_one : ∀ (fuel n : Nat), n < fuel →
    natReprGo fuel n = [ '1' ] → n = 1 := by
  intro fuel
  induction fuel with
  | zero => intro n h; omega
  | succ fuel ih =>
    intro n hlt heq
    by_cases h : n < 10
    · simp [natReprGo, h] at heq
      have hall : ∀ k, k < 10 → Nat.digitChar k = '1' → k = 1 := by decide
      exact hall n h heq
    · simp only [natReprGo, if_neg h] at heq
      have hdiv : n / 10 < n := Nat.div_lt_self (by omega) (by omega)
      have hfuel : n / 10 < fuel := by omega
      cases hg : natReprGo fuel (n / 10) with
      | nil => exact absurd hg (natReprGo_ne_nil fuel (n / 10) hfuel)
      | cons a as =>
        rw [hg] at heq
        have hlen := congrArg List.length heq
        simp [List.length_append] at hlen

theorem natRepr_eq_one (n : Nat) : natRepr n = [ '1' ] → n = 1 :=
  natReprGo_eq_one (n + 1) n (Nat.lt_succ_self n)

theorem intRepr_eq_one (n : Int) : intRepr n = "1" → n = 1 := by
  cases n with
  | ofNat m =>
    intro h
    have hd : natRepr m = [ '1' ] := congrArg String.data h
    have := natRepr_eq_one m hd
    simp [this]
  | negSucc m =>
    intro h
    have hd : '-' :: natRepr (m + 1) = [ '1' ] := congrArg String.data h
    have := List.head_eq_of_cons_eq hd
    exact absurd this (by decide)

-- ──────────────────────────────────────────────────────────────────────
-- Attribute-map update lemmas
-- ──────────────────────────────────────────────────────────────────────

theorem getAttr_setAttr_self (m : AttrMap) (k : String) (v : PyVal) :
    getAttr (setAttr m k v) k = some v := by
  induction m with
  | nil => simp [setAttr, getAttr]
  | cons p t ih =>
    obtain ⟨a, b⟩ := p
    by_cases h : a = k
    · simp [setAttr, h, getAttr]
    · simp [setAttr, h, getAttr, ih]

theorem getAttr_setAttr_ne (m : AttrMap) (k : String) (v : PyVal) (q : String)
    (h : q ≠ k) : getAttr (setAttr m k v) q = getAttr m q := by
  have hkq : k ≠ q := fun hkq => h hkq.symm
  induction m with
  | nil => simp [setAttr, getAttr, hkq]
  | cons p t ih =>
    obtain ⟨a, b⟩ := p
    by_cases hak : a = k
    · subst hak
      simp [setAttr, getAttr, hkq]
    · simp [setAttr, hak, getAttr, ih]

theorem catMaps_congr {f g : String → List String} :
    ∀ l : List String, (∀ a ∈ l, f a = g a) → catMaps f l = catMaps g l := by
  intro l
  induction l with
  | nil => intro _; rfl
  | cons a as ih =>
    intro h
    simp only [catMaps]
    rw [h a (List.mem_cons_self a as), ih (fun x hx => h x (List.mem_cons_of_mem a hx))]

-- ──────────────────────────────────────────────────────────────────────
-- The is_on test, characterized (claim C5)
-- ──────────────────────────────────────────────────────────────────────

theorem isOn_iff (v : PyVal) : isOn v = true ↔
    (v = PyVal.pyInt 1 ∨ v = PyVal.pyStr "1" ∨ v = PyVal.pyBool true) := by
  cases v with
  | none =>
    constructor
    · intro h; exact absurd h (by decide)
    · intro h; rcases h with h | h | h <;> exact absurd h (by simp)
  | pyInt n =>
    simp only [isOn, pyStrOf, pyEqOne, pyIsTrue, Bool.or_false, Bool.or_eq_true,
      beq_iff_eq]
    constructor
    · intro h
      rcases h with h | h
      · left; rw [intRepr_eq_one n h]
      · left; rw [h]
    · intro h
      rcases h with h | h | h
      · right; exact (PyVal.pyInt.injEq _ _).mp h
      · exact absurd h (by simp)
      · exact absurd h (by simp)
  | pyStr s =>
    simp only [isOn, pyStrOf, pyEqOne, pyIsTrue, Bool.or_false, beq_iff_eq]
    constructor
    · intro h; right; left; rw [h]
    · intro h
      rcases h with h | h | h
      · exact absurd h (by simp)
      · exact (PyVal.pyStr.injEq _ _).mp h
      · exact absurd h (by simp)
  | pyBool b =>
    cases b with
    | false =>
      constructor
      · intro h; exact absurd h (by decide)
      · intro h; rcases h with h | h | h <;> simp at h
    | true =>
      constructor
      · intro _; right; right; rfl
      · intro _; decide

/-- Pointwise equality of the two token streams when one on-flag value is
replaced by another on-flag value at a field that is a service flag. -/
theorem build_setAttr_on_eq (dictionary : KeyDict) (attributes : AttrMap)
    (svc : String) (hsvc : svc ∈ binary_fields_list) (v w : PyVal)
    (hv : isOn v = true) (hw : isOn w = true) :
    build_search_terms dictionary (setAttr attributes svc v) =
      build_search_terms dictionary (setAttr attributes svc w) := by
  have hspecial : ∀ s ∈ binary_fields_list, s ≠ "Agency_Name" ∧ s ≠ "Address" := by
    decide
  unfold build_search_terms
  congr 2
  unfold rawTokens
  congr 1
  · unfold baseTokens
    apply catMaps_congr
    intro base hbase
    have hne : base ≠ svc := by
      have h2 := hspecial svc hsvc
      rcases List.mem_cons.mp hbase with h | h
      · rw [h]; exact fun heq => h2.1 heq.symm
      · rcases List.mem_cons.mp h with h | h
        · rw [h]; exact fun heq => h2.2 heq.symm
        · exact absurd h (by simp)
    rw [getAttr_setAttr_ne attributes svc v base hne,
      getAttr_setAttr_ne attributes svc w base hne]
  · apply catMaps_congr
    intro s _
    by_cases hs : s = svc
    · subst hs
      unfold svcTokens
      rw [getAttr_setAttr_self, getAttr_setAttr_self]
      simp only [Option.getD_some, hv, hw, if_true]
    · unfold svcTokens
      rw [getAttr_setAttr_ne attributes svc v s hs,
        getAttr_setAttr_ne attributes svc w s hs]

/-- Claim C5: a service flag counts as on exactly when its value equals 1,
whether stored as the int 1, the string "1", or the boolean True; a value
of None (in particular an absent flag, whose dict get yields None) is off,
an off flag contributes no tokens, and build_search_terms treats the three
on encodings identically. -/
theorem c5_flag_truthiness :
    (∀ v : PyVal, isOn v = true ↔
      (v = PyVal.pyInt 1 ∨ v = PyVal.pyStr "1" ∨ v = PyVal.pyBool true))
    ∧ isOn PyVal.none = false
    ∧ (∀ (dictionary : KeyDict) (attributes : AttrMap) (svc : String),
        isOn ((getAttr attributes svc).getD PyVal.none) = false →
        svcTokens dictionary attributes svc = [])
    ∧ (∀ (dictionary : KeyDict) (attributes : AttrMap) (svc : String),
        svc ∈ binary_fields_list →
        build_search_terms dictionary (setAttr attributes svc (PyVal.pyInt 1)) =
          build_search_terms dictionary (setAttr attributes svc (PyVal.pyStr "1"))
        ∧ build_search_terms dictionary (setAttr attributes svc (PyVal.pyInt 1)) =
          build_search_terms dictionary (setAttr attributes svc (PyVal.pyBool true))) := by
  refine ⟨isOn_iff, by decide, ?_, ?_⟩
  · intro dictionary attributes svc h
    simp only [svcTokens, h, Bool.false_eq_true, if_false]
  · intro dictionary attributes svc hsvc
    exact ⟨build_setAttr_on_eq dictionary attributes svc hsvc _ _ (by decide) (by decide),
      build_setAttr_on_eq dictionary attributes svc hsvc _ _ (by decide) (by decide)⟩

theorem c5_witness :
    isOn (PyVal.pyInt 1) = true
    ∧ svcTokens [("Transportation", ["bus"])] [] "Transportation" = []
    ∧ build_search_terms [] (setAttr [] "Transportation" (PyVal.pyInt 1)) =
        build_search_terms [] (setAttr [] "Transportation" (PyVal.pyStr "1")) :=
  ⟨(c5_flag_truthiness.1 (PyVal.pyInt 1)).mpr (Or.inl rfl),
    c5_flag_truthiness.2.2.1 [("Transportation", ["bus"])] [] "Transportation" (by decide),
    (c5_flag_truthiness.2.2.2 [] [] "Transportation" (by decide)).1⟩

/-- Claim C4: the synthesized search string is the comma-space join of the
token list deduplicated at first occurrence (each distinct token appears
exactly once, and tokens survive exactly when they occur in the raw list);
on the dictionary with Transportation mapped to bus and rides, and the
attributes Acme / 1 Main St / Transportation on, the result is exactly
"Acme, 1 Main St, bus, rides". -/
theorem c4_search_terms_synthesis :
    (∀ (dictionary : KeyDict) (attributes : AttrMap),
      build_search_terms dictionary attributes =
        String.intercalate ", " (dedupF (rawTokens dictionary attributes)))
    ∧ (∀ l : List String, (dedupF l).Nodup)
    ∧ (∀ (l : List String) (x : String), x ∈ dedupF l ↔ x ∈ l)
    ∧ build_search_terms [("Transportation", ["bus", "rides"])]
        [("Agency_Name", PyVal.pyStr "Acme"), ("Address", PyVal.pyStr "1 Main St"),
         ("Transportation", PyVal.pyInt 1)] = "Acme, 1 Main St, bus, rides" := by
  refine ⟨?_, nodup_dedupF, mem_dedupF, by decide⟩
  intro dictionary attributes
  unfold build_search_terms
  rw [pyDedup_eq_dedupF]

-- ──────────────────────────────────────────────────────────────────────
-- Schema-field classification (src/main.py, editable_field_names and the
-- binary / other split of show_create_page and show_edit_page)
-- ──────────────────────────────────────────────────────────────────────

/-- The fixed system-field exclusion set of editable_field_names. -/
def excludeNames : List String :=
  [ "ObjectId", "OBJECTID", "GlobalID", "GlobalId", "Shape",
    "Shape_Area", "Shape_Length", "CreationDate", "Creator",
    "EditDate", "Editor" ]

/-- The fixed custom-rendered-field set of editable_field_names. -/
def customNames : List String :=
  [ "Name", "Phone_number", "Address", "Address_w_suit__", "Latitude",
    "Longitude" ]

/-- editable_field_names from src/main.py, over the ordered list of schema
field names (fetched remotely in the source): keep the names in neither the
exclusion set nor the custom set. -/
def editable_field_names (names : List String) : List String :=
  names.filter (fun n => decide (n ∉ excludeNames) && decide (n ∉ customNames))

/-- The other bucket: editable fields that are not service flags
(other_schema_fields in show_create_page and show_edit_page). -/
def otherSchemaFields (names : List String) : List String :=
  (editable_field_names names).filter (fun n => decide (n ∉ binary_fields_list))

/-- The service-flag bucket: editable fields that are service flags. -/
def serviceFlagFields (names : List String) : List String :=
  (editable_field_names names).filter (fun n => decide (n ∈ binary_fields_list))

/-- The excluded bucket: schema fields dropped by editable_field_names. -/
def excludedFields (names : List String) : List String :=
  names.filter (fun n => decide (n ∈ excludeNames) || decide (n ∈ customNames))

theorem serviceFlag_append_other_perm (names : List String) :
    (serviceFlagFields names ++ otherSchemaFields names).Perm
      (editable_field_names names) := by
  have h := List.filter_append_perm (fun n => decide (n ∈ binary_fields_list))
    (editable_field_names names)
  have heq : (editable_field_names names).filter
      (fun n => !decide (n ∈ binary_fields_list)) = otherSchemaFields names := by
    apply List.filter_congr
    intro x _
    by_cases hx : x ∈ binary_fields_list <;> simp [hx]
  rw [heq] at h
  exact h

theorem excluded_append_editable_perm (names : List String) :
    (excludedFields names ++ editable_field_names names).Perm names := by
  have h := List.filter_append_perm
    (fun n => decide (n ∈ excludeNames) || decide (n ∈ customNames)) names
  have heq : names.filter
      (fun n => !(decide (n ∈ excludeNames) || decide (n ∈ customNames))) =
      editable_field_names names := by
    apply List.filter_congr
    intro x _
    by_cases h1 : x ∈ excludeNames <;> by_cases h2 : x ∈ customNames <;>
      simp [h1, h2]
  rw [heq] at h
  exact h

/-- Claim C7: field classification is order-preserving (each bucket is a
sublist of the schema list), the three buckets partition the schema list as
a multiset, no field name lands in two buckets, and the empty schema gives
an empty other bucket. Classification is deterministic because it is a
pure function of the schema list and the two fixed constant sets. -/
theorem c7_classification_partition : ∀ names : List String,
    (otherSchemaFields names).Sublist names
    ∧ (serviceFlagFields names).Sublist names
    ∧ (excludedFields names).Sublist names
    ∧ (excludedFields names ++ serviceFlagFields names ++ otherSchemaFields names).Perm
        names
    ∧ (∀ n : String,
        (n ∈ otherSchemaFields names → n ∉ serviceFlagFields names
          ∧ n ∉ excludedFields names)
        ∧ (n ∈ serviceFlagFields names → n ∉ excludedFields names))
    ∧ otherSchemaFields [] = [] := by
  intro names
  refine ⟨?_, ?_, ?_, ?_, ?_, rfl⟩
  · exact ((editable_field_names names).filter_sublist.trans
      (names.filter_sublist))
  · exact ((editable_field_names names).filter_sublist.trans
      (names.filter_sublist))
  · exact names.filter_sublist
  · have hassoc :
        excludedFields names ++ serviceFlagFields names ++ otherSchemaFields names
          = excludedFields names ++ (serviceFlagFields names ++ otherSchemaFields names) :=
      List.append_assoc _ _ _
    rw [hassoc]
    exact (List.Perm.append_left _ (serviceFlag_append_other_perm names)).trans
      (excluded_append_editable_perm names)
  · intro n
    constructor
    · intro hn
      have h1 := List.mem_filter.mp hn
      have hnotbin : n ∉ binary_fields_list := by simpa using h1.2
      have h2 := List.mem_filter.mp h1.1
      have hnotexc : n ∉ excludeNames ∧ n ∉ customNames := by
        constructor
        · intro hc; simp [hc] at h2
        · intro hc; simp [hc] at h2
      constructor
      · intro hsvc
        have := List.mem_filter.mp hsvc
        simp at this
        exact hnotbin this.2
      · intro hexc
        have := List.mem_filter.mp hexc
        simp at this
        rcases this.2 with h | h
        · exact hnotexc.1 h
        · exact hnotexc.2 h
    · intro hn
      have h1 := List.mem_filter.mp hn
      have h2 := List.mem_filter.mp h1.1
      have hnotexc : n ∉ excludeNames ∧ n ∉ customNames := by
        constructor
        · intro hc; simp [hc] at h2
        · intro hc; simp [hc] at h2
      intro hexc
      have := List.mem_filter.mp hexc
      simp at this
      rcases this.2 with h | h
      · exact hnotexc.1 h
      · exact hnotexc.2 h

theorem c7_witness :
    "Transportation" ∉ excludedFields [ "OBJECTID", "Agency_Name", "Transportation" ] :=
  ((c7_classification_partition [ "OBJECTID", "Agency_Name", "Transportation" ]).2.2.2.2.1
    "Transportation").2 (by decide)

-- ──────────────────────────────────────────────────────────────────────
-- Keyword dictionary loading (src/main.py, load_service_keyword_dict)
-- ──────────────────────────────────────────────────────────────────────

/-- One row of the hosted keywords table: the Service_Field attribute and
the Keywords attribute, each possibly missing (None). -/
structure KRow : Type where
  svc : Option String
  keywords : Option String
deriving DecidableEq, Repr

/-- Split a character list at every comma, as Python str.split(",") does:
the empty input yields one empty piece, and n commas yield n+1 pieces. -/
def splitOnComma : List Char → List (List Char)
  | [] => [[]]
  | c :: rest =>
    if c = ',' then [] :: splitOnComma rest
    else
      match splitOnComma rest with
      | [] => [[c]]
      | h :: t => (c :: h) :: t

/-- The comma-separated pieces of a blob, as strings. -/
def commaPieces (blob : String) : List String :=
  (splitOnComma blob.data).map String.mk

/-- Parse the comma-separated phrase blob of one row: split on commas,
strip each piece, keep the non-empty pieces in order. -/
def parseTerms (blob : String) : List String :=
  ((commaPieces blob).map pyStrip).filter (fun t => t ≠ "")

/-- The effective flag name of a row: the `if not svc: continue` guard
skips a missing name and an empty name alike. -/
def svcEff (r : KRow) : Option String :=
  match r.svc with
  | Option.none => Option.none
  | some s => if s = "" then Option.none else some s

/-- One loop iteration of load_service_keyword_dict. -/
def loadStep (m : KeyDict) (r : KRow) : KeyDict :=
  match r.svc with
  | Option.none => m
  | some s => if s = "" then m else setEntry m s (parseTerms (r.keywords.getD ""))

/-- load_service_keyword_dict from src/main.py, over the decoded rows of
the remote keywords table. -/
def load_service_keyword_dict (rows : List KRow) : KeyDict :=
  rows.foldl loadStep []

theorem mem_setEntry : ∀ (m : KeyDict) (k : String) (v : List String)
    (p : String × List String), p ∈ setEntry m k v → p = (k, v) ∨ p ∈ m := by
  intro m k v p
  induction m with
  | nil => intro h; simp [setEntry] at h; simp [h]
  | cons q t ih =>
    obtain ⟨a, b⟩ := q
    by_cases hak : a = k
    · subst hak
      intro h
      simp only [setEntry, if_pos rfl] at h
      rcases List.mem_cons.mp h with h | h
      · exact Or.inl h
      · exact Or.inr (List.mem_cons_of_mem _ h)
    · intro h
      simp only [setEntry, if_neg hak] at h
      rcases List.mem_cons.mp h with h | h
      · exact Or.inr (by simp [h])
      · rcases ih h with h | h
        · exact Or.inl h
        · exact Or.inr (List.mem_cons_of_mem _ h)

theorem getEntry_setEntry_self (m : KeyDict) (k : String) (v : List String) :
    getEntry (setEntry m k v) k = some v := by
  induction m with
  | nil => simp [setEntry, getEntry]
  | cons q t ih =>
    obtain ⟨a, b⟩ := q
    by_cases h : a = k
    · simp [setEntry, h, getEntry]
    · simp [setEntry, h, getEntry, ih]

theorem getEntry_setEntry_ne (m : KeyDict) (k : String) (v : List String)
    (q : String) (h : q ≠ k) : getEntry (setEntry m k v) q = getEntry m q := by
  have hkq : k ≠ q := fun hh => h hh.symm
  induction m with
  | nil => simp [setEntry, getEntry, hkq]
  | cons p t ih =>
    obtain ⟨a, b⟩ := p
    by_cases hak : a = k
    · subst hak
      simp [setEntry, getEntry, hkq]
    · simp [setEntry, hak, getEntry, ih]

theorem getEntry_loadStep_isSome (m : KeyDict) (r : KRow) (s : String)
    (h : (getEntry m s).isSome = true) :
    (getEntry (loadStep m r) s).isSome = true := by
  unfold loadStep
  match hr : r.svc with
  | Option.none => exact h
  | some s' =>
    by_cases hs' : s' = ""
    · simp [hs', h]
    · simp only [hs', if_false]
      by_cases hss : s = s'
      · subst hss
        rw [getEntry_setEntry_self]
        rfl
      · rw [getEntry_setEntry_ne _ _ _ _ hss]
        exact h

theorem getEntry_foldl_isSome : ∀ (rows : List KRow) (m : KeyDict) (s : String),
    (getEntry m s).isSome = true →
    (getEntry (rows.foldl loadStep m) s).isSome = true := by
  intro rows
  induction rows with
  | nil => intro m s h; exact h
  | cons r rows ih =>
    intro m s h
    exact ih (loadStep m r) s (getEntry_loadStep_isSome m r s h)

theorem mem_foldl_loadStep : ∀ (rows : List KRow) (m : KeyDict)
    (p : String × List String), p ∈ rows.foldl loadStep m →
    p ∈ m ∨ ∃ r ∈ rows, svcEff r = some p.1 ∧ p.2 = parseTerms (r.keywords.getD "") := by
  intro rows
  induction rows with
  | nil => intro m p h; exact Or.inl h
  | cons r rows ih =>
    intro m p h
    rcases ih (loadStep m r) p h with h1 | h1
    · unfold loadStep at h1
      split at h1
      · exact Or.inl h1
      · rename_i s hr
        split at h1
        · exact Or.inl h1
        · rename_i hs
          rcases mem_setEntry _ _ _ _ h1 with h2 | h2
          · refine Or.inr ⟨r, List.mem_cons_self r rows, ?_, ?_⟩
            · simp [svcEff, hr, hs, h2]
            · simp [h2]
          · exact Or.inl h2
    · obtain ⟨r', hr', hh⟩ := h1
      exact Or.inr ⟨r', List.mem_cons_of_mem r hr', hh⟩

theorem foldl_loadStep_skip : ∀ (rows : List KRow) (m : KeyDict),
    rows.foldl loadStep m =
      (rows.filter (fun r => (svcEff r).isSome)).foldl loadStep m := by
  intro rows
  induction rows with
  | nil => intro m; rfl
  | cons r rows ih =>
    intro m
    by_cases h : (svcEff r).isSome = true
    · rw [List.filter_cons_of_pos (by simp [h])]
      simp only [List.foldl_cons]
      exact ih (loadStep m r)
    · rw [List.filter_cons_of_neg (by simp [h])]
      simp only [List.foldl_cons]
      have hstep : loadStep m r = m := by
        unfold loadStep
        unfold svcEff at h
        match hr : r.svc with
        | Option.none => rfl
        | some s =>
          rw [hr] at h
          by_cases hs : s = ""
          · simp [hs]
          · simp [hs] at h
      rw [hstep]
      exact ih m

/-- Claim C8: every entry of the built dictionary comes from some source
row via split-on-comma, strip, discard-empty; every row with a present
flag name has its key present in the mapping; every kept phrase is a
non-empty stripped piece of the blob; and rows with a missing flag name
are skipped entirely (the build only sees the rows whose flag is present).
Rebuilding from the same rows is deterministic because the build is a pure
function of the rows. -/
theorem c8_keyword_dict_build : ∀ rows : List KRow,
    (∀ (s : String) (terms : List String),
      (s, terms) ∈ load_service_keyword_dict rows →
      ∃ r ∈ rows, svcEff r = some s ∧ terms = parseTerms (r.keywords.getD ""))
    ∧ (∀ r ∈ rows, ∀ s : String, svcEff r = some s →
        (getEntry (load_service_keyword_dict rows) s).isSome = true)
    ∧ (∀ (blob t : String), t ∈ parseTerms blob →
        t ≠ "" ∧ ∃ piece ∈ commaPieces blob, t = pyStrip piece)
    ∧ load_service_keyword_dict rows =
        load_service_keyword_dict (rows.filter (fun r => (svcEff r).isSome)) := by
  intro rows
  refine ⟨?_, ?_, ?_, foldl_loadStep_skip rows []⟩
  · intro s terms h
    rcases mem_foldl_loadStep rows [] (s, terms) h with h1 | h1
    · exact absurd h1 (List.not_mem_nil _)
    · exact h1
  · intro r hr s hs
    obtain ⟨l1, l2, hsplit⟩ := List.append_of_mem hr
    unfold load_service_keyword_dict
    rw [hsplit, List.foldl_append, List.foldl_cons]
    apply getEntry_foldl_isSome
    have hsvc : r.svc = some s ∧ s ≠ "" := by
      unfold svcEff at hs
      match hrv : r.svc with
      | Option.none => rw [hrv] at hs; exact absurd hs (by simp)
      | some s' =>
        rw [hrv] at hs
        by_cases hs' : s' = ""
        · simp [hs'] at hs
        · simp [hs'] at hs
          exact ⟨by rw [hs], by rw [← hs]; exact hs'⟩
    unfold loadStep
    split
    · rename_i hnone
      rw [hsvc.1] at hnone
      exact absurd hnone (by simp)
    · rename_i s' hsome
      rw [hsvc.1] at hsome
      injection hsome with hss
      subst hss
      rw [if_neg hsvc.2, getEntry_setEntry_self]
      rfl
  · intro blob t ht
    have h1 := List.mem_filter.mp ht
    have h2 := List.mem_map.mp h1.1
    obtain ⟨piece, hpiece, hstrip⟩ := h2
    refine ⟨by simpa using h1.2, piece, hpiece, hstrip.symm⟩

theorem c8_witness :
    (∃ r ∈ [ KRow.mk (some "Transportation") (some " bus , rides "),
             KRow.mk Option.none (some "x") ],
      svcEff r = some "Transportation"
      ∧ ["bus", "rides"] = parseTerms (r.keywords.getD ""))
    ∧ (getEntry (load_service_keyword_dict
        [ KRow.mk (some "Transportation") (some " bus , rides "),
          KRow.mk Option.none (some "x") ]) "Transportation").isSome = true :=
  ⟨(c8_keyword_dict_build
      [ KRow.mk (some "Transportation") (some " bus , rides "),
        KRow.mk Option.none (some "x") ]).1 "Transportation" ["bus", "rides"]
      (by decide),
    (c8_keyword_dict_build
      [ KRow.mk (some "Transportation") (some " bus , rides "),
        KRow.mk Option.none (some "x") ]).2.1
      (KRow.mk (some "Transportation") (some " bus , rides ")) (by decide)
      "Transportation" (by decide)⟩

-- ──────────────────────────────────────────────────────────────────────
-- PDF text fitting (src/public_pdf.py, fit_to_width)
-- ──────────────────────────────────────────────────────────────────────

/-- One truncation step of fit_to_width: drop the last four characters and
append three dots (the Python slice text[:-4] concatenated with "..."). -/
def truncStep (t : String) : String :=
  String.mk (t.data.take (t.data.length - 4) ++ [ '.', '.', '.' ])

theorem truncStep_length {t : String} (h : 3 < t.data.length) :
    (truncStep t).data.length = t.data.length - 1 := by
  show (t.data.take (t.data.length - 4) ++ [ '.', '.', '.' ]).length
      = t.data.length - 1
  rw [List.length_append, List.length_take]
  have hmin : min (t.data.length - 4) t.data.length = t.data.length - 4 :=
    Nat.min_eq_left (by omega)
  rw [hmin]
  show t.data.length - 4 + 3 = t.data.length - 1
  omega

theorem truncStep_lt {t : String} (h : 3 < t.data.length) :
    (truncStep t).data.length < t.data.length := by
  rw [truncStep_length h]
  omega

/-- The while loop of fit_to_width: truncate while the rendered width
exceeds the limit and more than three characters remain. The width oracle
(the get_string_width method of the PDF object, an external collaborator)
is a parameter. -/
def fitLoop (w : String → ℚ) (maxW : ℚ) (t : String) : String :=
  if h : maxW < w t ∧ 3 < t.data.length then fitLoop w maxW (truncStep t)
  else t
  termination_by t.data.length
  decreasing_by exact truncStep_lt h.2

/-- fit_to_width from src/public_pdf.py, for string input (the safe helper
is the identity on strings): empty text is returned as is, otherwise the
truncation loop runs. -/
def fit_to_width (w : String → ℚ) (maxW : ℚ) (text : String) : String :=
  if text = "" then "" else fitLoop w maxW text

theorem fitLoop_cases_fuel : ∀ (n : Nat) (w : String → ℚ) (maxW : ℚ)
    (t : String), t.data.length ≤ n →
    fitLoop w maxW t = t
    ∨ ((fitLoop w maxW t).data.length < t.data.length
        ∧ [ '.', '.', '.' ].IsSuffix (fitLoop w maxW t).data) := by
  intro n
  induction n with
  | zero =>
    intro w maxW t ht
    have hz : t.data.length = 0 := by omega
    rw [fitLoop, dif_neg (fun hc => absurd hc.2 (by omega))]
    exact Or.inl rfl
  | succ n ih =>
    intro w maxW t ht
    rw [fitLoop]
    by_cases hc : maxW < w t ∧ 3 < t.data.length
    · rw [dif_pos hc]
      have hlt : (truncStep t).data.length < t.data.length := truncStep_lt hc.2
      have hle : (truncStep t).data.length ≤ n := by omega
      have hsuf : [ '.', '.', '.' ].IsSuffix (truncStep t).data :=
        List.suffix_append _ _
      rcases ih w maxW (truncStep t) hle with h | h
      · rw [h]
        exact Or.inr ⟨hlt, hsuf⟩
      · exact Or.inr ⟨by omega, h.2⟩
    · rw [dif_neg hc]
      exact Or.inl rfl

/-- Claim C9: fit_to_width terminates for every input (it is a total
function of the text here, with each truncation step shortening the text
by exactly one character while more than three characters remain), and for
a positive width limit it returns the empty string, the original text
unchanged, or a strictly shorter text ending in three dots. -/
theorem c9_fit_to_width_shape :
    (∀ t : String, 3 < t.data.length →
      (truncStep t).data.length = t.data.length - 1)
    ∧ (∀ (w : String → ℚ) (maxW : ℚ) (text : String), 0 < maxW →
        (fit_to_width w maxW text = ""
          ∨ fit_to_width w maxW text = text
          ∨ ((fit_to_width w maxW text).data.length < text.data.length
              ∧ [ '.', '.', '.' ].IsSuffix (fit_to_width w maxW text).data))) := by
  refine ⟨fun t h => truncStep_length h, ?_⟩
  intro w maxW text _
  by_cases htext : text = ""
  · left
    simp [fit_to_width, htext]
  · rw [fit_to_width, if_neg htext]
    rcases fitLoop_cases_fuel text.data.length w maxW text le_rfl with h | h
    · right; left; exact h
    · right; right; exact h

theorem c9_witness :
    (truncStep "hello").data.length = "hello".data.length - 1
    ∧ (fit_to_width (fun s => (s.data.length : ℚ)) 2 "hi" = ""
        ∨ fit_to_width (fun s => (s.data.length : ℚ)) 2 "hi" = "hi"
        ∨ ((fit_to_width (fun s => (s.data.length : ℚ)) 2 "hi").data.length
              < "hi".data.length
            ∧ [ '.', '.', '.' ].IsSuffix
              (fit_to_width (fun s => (s.data.length : ℚ)) 2 "hi").data)) :=
  ⟨c9_fit_to_width_shape.1 "hello" (by decide),
    c9_fit_to_width_shape.2 (fun s => (s.data.length : ℚ)) 2 "hi" (by norm_num)⟩

-- ──────────────────────────────────────────────────────────────────────
-- Python float() acceptance (used by the geometry code paths)
-- ──────────────────────────────────────────────────────────────────────

/-- Drop one optional leading sign character. -/
def dropSign : List Char → List Char
  | [] => []
  | c :: r => if c = '+' || c = '-' then r else c :: r

/-- Split the character list at the first exponent marker, returning the
mantissa part and the exponent part when a marker exists. -/
def splitOnExp : List Char → List Char × Option (List Char)
  | [] => ([], Option.none)
  | c :: rest =>
    if c = 'e' || c = 'E' then ([], some rest)
    else
      let p := splitOnExp rest
      (c :: p.1, p.2)

/-- Mantissa shape: digits, optionally containing one point, with at least
one digit overall. -/
def mantissaOk (cs : List Char) : Bool :=
  let intPart := cs.takeWhile Char.isDigit
  let rest := cs.dropWhile Char.isDigit
  match rest with
  | [] => !intPart.isEmpty
  | c :: frac =>
    if c = '.' then frac.all Char.isDigit && (!intPart.isEmpty || !frac.isEmpty)
    else false

/-- Exponent shape: optional sign then at least one digit. -/
def expOk (cs : List Char) : Bool :=
  let body := dropSign cs
  !body.isEmpty && body.all Char.isDigit

/-- Acceptance test of the Python float builtin on a string: surrounding
whitespace is ignored, one leading sign is allowed, and the body is inf,
infinity or nan (any letter case) or a decimal literal with an optional
fraction and exponent. Digit-group underscores are not modelled; none of
the properties below depend on them. The embedded submission paths only
branch on whether float() raises, so this predicate is all they need. -/
def pyFloatOk (s : String) : Bool :=
  let cs := dropSign (pyStrip s).data
  let low := cs.map Char.toLower
  if low = "inf".data || low = "infinity".data || low = "nan".data then true
  else
    match splitOnExp cs with
    | (m, Option.none) => mantissaOk m
    | (m, some e) => mantissaOk m && expOk e

-- ──────────────────────────────────────────────────────────────────────
-- Create and edit submission (src/main.py, show_create_page and
-- show_edit_page, submit branches)
-- ──────────────────────────────────────────────────────────────────────

/-- The outgoing feature of applyEdits: the attribute map and, optionally,
the pair of coordinate source strings (x from the longitude string, y from
the latitude string) that the geometry is built from. -/
structure Feature : Type where
  attributes : AttrMap
  geometry : Option (String × String)
deriving DecidableEq, Repr

/-- The empty-string cleaning of a single value: the dict comprehension
clause v if v != "" else None. -/
def cleanVal (v : PyVal) : PyVal :=
  if v = PyVal.pyStr "" then PyVal.none else v

/-- Clean an attribute map: every value equal to the empty string becomes
None, keys and order unchanged. -/
def cleanAttrs (m : AttrMap) : AttrMap :=
  m.map (fun p => (p.1, cleanVal p.2))

/-- The attribute map actually transmitted: the cleaned form of the entry,
with Search_Terms assigned from build_search_terms on the cleaned map
(the assignment happens after the cleaning in both pages). -/
def transmittedAttrs (dictionary : KeyDict) (entry : AttrMap) : AttrMap :=
  setAttr (cleanAttrs entry) "Search_Terms"
    (PyVal.pyStr (build_search_terms dictionary (cleanAttrs entry)))

/-- The submit branch of show_create_page, after the phone-error gate: the
coordinate session strings are converted by float() when non-empty (a
conversion failure raises, caught as a reported error, and no write is
attempted), the entry is cleaned, Search_Terms is computed, and geometry
is attached exactly when both converted coordinates are not None. The
float acceptance test is a parameter standing for the float builtin. -/
def createSubmit (parse : String → Bool) (latS lngS : String)
    (entry : AttrMap) (dictionary : KeyDict) : Except String Feature :=
  if latS ≠ "" ∧ parse latS = false then
    Except.error "could not convert string to float"
  else if lngS ≠ "" ∧ parse lngS = false then
    Except.error "could not convert string to float"
  else
    Except.ok
      { attributes := transmittedAttrs dictionary entry
        geometry := if latS ≠ "" ∧ lngS ≠ "" then some (lngS, latS) else Option.none }

/-- The stripped coordinate string used by the edit path: the local
lat_str and lng_str of show_edit_page, stripping only truthy strings. -/
def effCoord (s : String) : String := if s ≠ "" then pyStrip s else ""

/-- The submit branch of show_edit_page, after the phone-error gate: the
coordinate session strings are stripped when truthy, the edited map is
cleaned and Search_Terms recomputed, and only when both stripped strings
are non-empty are they converted by float() (inside the geometry literal,
x from the longitude first) and geometry attached; a conversion failure
raises and is reported with no write attempted. -/
def editSubmit (parse : String → Bool) (latRaw lngRaw : String)
    (edited : AttrMap) (dictionary : KeyDict) : Except String Feature :=
  if effCoord latRaw ≠ "" ∧ effCoord lngRaw ≠ "" then
    if parse (effCoord lngRaw) = false then
      Except.error "could not convert string to float"
    else if parse (effCoord latRaw) = false then
      Except.error "could not convert string to float"
    else
      Except.ok
        { attributes := transmittedAttrs dictionary edited
          geometry := some (effCoord lngRaw, effCoord latRaw) }
  else
    Except.ok
      { attributes := transmittedAttrs dictionary edited
        geometry := Option.none }

theorem cleanVal_ne_empty_str (v : PyVal) : cleanVal v ≠ PyVal.pyStr "" := by
  unfold cleanVal
  by_cases h : v = PyVal.pyStr ""
  · simp [h]
  · simp [h]

theorem getAttr_cleanAttrs (m : AttrMap) (k : String) :
    getAttr (cleanAttrs m) k = (getAttr m k).map cleanVal := by
  induction m with
  | nil => rfl
  | cons p t ih =>
    obtain ⟨a, b⟩ := p
    by_cases h : a = k
    · simp [cleanAttrs, getAttr, h]
    · simp only [cleanAttrs, List.map_cons, getAttr, if_neg h]
      exact ih

theorem transmittedAttrs_spec (dictionary : KeyDict) (entry : AttrMap) :
    (∀ k v, getAttr (transmittedAttrs dictionary entry) k = some v →
      v = PyVal.pyStr "" → k = "Search_Terms")
    ∧ getAttr (transmittedAttrs dictionary entry) "Search_Terms" =
        some (PyVal.pyStr (build_search_terms dictionary (cleanAttrs entry))) := by
  constructor
  · intro k v hk hv
    by_cases hks : k = "Search_Terms"
    · exact hks
    · exfalso
      rw [transmittedAttrs, getAttr_setAttr_ne _ _ _ _ hks,
        getAttr_cleanAttrs] at hk
      match hg : getAttr entry k with
      | Option.none => rw [hg] at hk; cases hk
      | some w =>
        rw [hg] at hk
        simp at hk
        rw [← hk] at hv
        exact cleanVal_ne_empty_str w hv
  · rw [transmittedAttrs, getAttr_setAttr_self]

theorem createSubmit_eq (parse : String → Bool) (latS lngS : String)
    (entry : AttrMap) (dictionary : KeyDict) :
    createSubmit parse latS lngS entry dictionary =
      if (latS ≠ "" ∧ parse latS = false) ∨ (lngS ≠ "" ∧ parse lngS = false) then
        Except.error "could not convert string to float"
      else
        Except.ok
          { attributes := transmittedAttrs dictionary entry
            geometry :=
              if latS ≠ "" ∧ lngS ≠ "" then some (lngS, latS) else Option.none } := by
  unfold createSubmit
  by_cases h1 : latS ≠ "" ∧ parse latS = false
  · simp [h1]
  · by_cases h2 : lngS ≠ "" ∧ parse lngS = false
    · simp [h1, h2]
    · simp [h1, h2]

theorem editSubmit_eq (parse : String → Bool) (latRaw lngRaw : String)
    (edited : AttrMap) (dictionary : KeyDict) :
    editSubmit parse latRaw lngRaw edited dictionary =
      if effCoord latRaw ≠ "" ∧ effCoord lngRaw ≠ "" then
        if parse (effCoord lngRaw) = false ∨ parse (effCoord latRaw) = false then
          Except.error "could not convert string to float"
        else
          Except.ok
            { attributes := transmittedAttrs dictionary edited
              geometry := some (effCoord lngRaw, effCoord latRaw) }
      else
        Except.ok
          { attributes := transmittedAttrs dictionary edited
            geometry := Option.none } := by
  unfold editSubmit
  by_cases hc : effCoord latRaw ≠ "" ∧ effCoord lngRaw ≠ ""
  · rw [if_pos hc, if_pos hc]
    by_cases hg : parse (effCoord lngRaw) = false
    · rw [if_pos hg, if_pos (Or.inl hg)]
    · rw [if_neg hg]
      by_cases hl : parse (effCoord latRaw) = false
      · rw [if_pos hl, if_pos (Or.inr hl)]
      · rw [if_neg hl, if_neg (fun hor => hor.elim hg hl)]
  · rw [if_neg hc, if_neg hc]

theorem submitOk_attributes (parse : String → Bool) (latS lngS : String)
    (entry : AttrMap) (dictionary : KeyDict) (f : Feature)
    (h : createSubmit parse latS lngS entry dictionary = Except.ok f
      ∨ editSubmit parse latS lngS entry dictionary = Except.ok f) :
    f.attributes = transmittedAttrs dictionary entry := by
  rcases h with h | h
  · rw [createSubmit_eq] at h
    split at h
    · cases h
    · cases h
      rfl
  · rw [editSubmit_eq] at h
    split at h
    · split at h
      · cases h
      · cases h
        rfl
    · cases h
      rfl

/-- Claim C1 counterexample: submitting a create form whose only field is
an empty Agency_Name (with no coordinates and an empty dictionary)
succeeds, and the transmitted attribute map carries the empty string as
the value of Search_Terms — so not every field of the transmitted record
avoids the empty string. -/
theorem c1_counterexample :
    createSubmit pyFloatOk "" "" [("Agency_Name", PyVal.pyStr "")] [] =
      Except.ok (Feature.mk
        [("Agency_Name", PyVal.none), ("Search_Terms", PyVal.pyStr "")]
        Option.none)
    ∧ getAttr [("Agency_Name", PyVal.none), ("Search_Terms", PyVal.pyStr "")]
        "Search_Terms" = some (PyVal.pyStr "") :=
  ⟨rfl, rfl⟩

/-- Claim C1 (amended): on both the create and the edit submit path, every
attribute value of the submitted form that equals the empty string is
replaced by None before transmission, so in the transmitted map only the
derived Search_Terms field can carry the empty string: Search_Terms is
assigned after the cleaning, from build_search_terms on the cleaned map,
and is the empty string whenever no token is produced. -/
theorem c1_clean_except_search_terms :
    ∀ (parse : String → Bool) (latS lngS : String) (entry : AttrMap)
      (dictionary : KeyDict) (f : Feature),
      (createSubmit parse latS lngS entry dictionary = Except.ok f
        ∨ editSubmit parse latS lngS entry dictionary = Except.ok f) →
      (∀ k v, getAttr f.attributes k = some v → v = PyVal.pyStr "" →
        k = "Search_Terms")
      ∧ getAttr f.attributes "Search_Terms" =
          some (PyVal.pyStr (build_search_terms dictionary (cleanAttrs entry))) := by
  intro parse latS lngS entry dictionary f h
  rw [submitOk_attributes parse latS lngS entry dictionary f h]
  exact transmittedAttrs_spec dictionary entry

theorem c1_witness :
    getAttr (Feature.mk
        [("Agency_Name", PyVal.pyStr "Acme"), ("Search_Terms", PyVal.pyStr "Acme")]
        Option.none).attributes "Search_Terms" =
      some (PyVal.pyStr (build_search_terms []
        (cleanAttrs [("Agency_Name", PyVal.pyStr "Acme")]))) :=
  (c1_clean_except_search_terms pyFloatOk "" "" [("Agency_Name", PyVal.pyStr "Acme")]
    [] (Feature.mk
      [("Agency_Name", PyVal.pyStr "Acme"), ("Search_Terms", PyVal.pyStr "Acme")]
      Option.none) (Or.inl rfl)).2

/-- Claim C2 counterexample: on the edit path, a non-empty latitude that
does not parse as a number ("abc") together with an empty longitude does
not fail the submission: the submit succeeds (the write is attempted) and
the geometry is silently omitted, because float() only runs when both
stripped coordinate strings are non-empty. -/
theorem c2_counterexample :
    editSubmit pyFloatOk "abc" "" [] [] =
      Except.ok (Feature.mk [("Search_Terms", PyVal.pyStr "")] Option.none)
    ∧ ("abc" : String) ≠ ""
    ∧ pyFloatOk "abc" = false :=
  ⟨rfl, by decide, by decide⟩

theorem pyFloatOk_empty : pyFloatOk "" = false := by decide

/-- Claim C2 (amended): on the create path a submission fails with a
reported error exactly when some non-empty coordinate string is rejected
by float(), and a successful submission attaches geometry exactly when
both coordinate strings parse as numbers. On the edit path the conversion
runs only when both stripped coordinate strings are non-empty: a
submission fails exactly when both are non-empty and one of them is
rejected, so a non-parsing coordinate paired with an empty one succeeds
with geometry silently omitted; successful edit submissions still attach
geometry exactly when both stripped strings parse. -/
theorem c2_geometry_paths :
    ∀ (latS lngS : String) (entry : AttrMap) (dictionary : KeyDict),
      ((∃ e, createSubmit pyFloatOk latS lngS entry dictionary = Except.error e) ↔
        ((latS ≠ "" ∧ pyFloatOk latS = false) ∨ (lngS ≠ "" ∧ pyFloatOk lngS = false)))
      ∧ (∀ f, createSubmit pyFloatOk latS lngS entry dictionary = Except.ok f →
          f.geometry.isSome = (pyFloatOk latS && pyFloatOk lngS))
      ∧ ((∃ e, editSubmit pyFloatOk latS lngS entry dictionary = Except.error e) ↔
          (effCoord latS ≠ "" ∧ effCoord lngS ≠ ""
            ∧ (pyFloatOk (effCoord latS) = false ∨ pyFloatOk (effCoord lngS) = false)))
      ∧ (∀ f, editSubmit pyFloatOk latS lngS entry dictionary = Except.ok f →
          f.geometry.isSome = (pyFloatOk (effCoord latS) && pyFloatOk (effCoord lngS))) := by
  intro latS lngS entry dictionary
  refine ⟨?_, ?_, ?_, ?_⟩
  · rw [createSubmit_eq]
    by_cases hcond : (latS ≠ "" ∧ pyFloatOk latS = false)
        ∨ (lngS ≠ "" ∧ pyFloatOk lngS = false)
    · rw [if_pos hcond]
      exact ⟨fun _ => hcond, fun _ => ⟨_, rfl⟩⟩
    · rw [if_neg hcond]
      constructor
      · intro ⟨e, he⟩; cases he
      · intro h; exact absurd h hcond
  · intro f hf
    rw [createSubmit_eq] at hf
    split at hf
    · cases hf
    · rename_i hcond
      cases hf
      show (if latS ≠ "" ∧ lngS ≠ "" then some (lngS, latS) else Option.none).isSome
          = (pyFloatOk latS && pyFloatOk lngS)
      by_cases hl : latS = ""
      · rw [if_neg (fun hand => hand.1 hl), hl, pyFloatOk_empty, Bool.false_and]
        rfl
      · have hpl : pyFloatOk latS = true := by
          cases hx : pyFloatOk latS with
          | true => rfl
          | false => exact absurd (Or.inl ⟨hl, hx⟩) hcond
        by_cases hg : lngS = ""
        · rw [if_neg (fun hand => hand.2 hg), hg, pyFloatOk_empty, Bool.and_false]
          rfl
        · have hpg : pyFloatOk lngS = true := by
            cases hx : pyFloatOk lngS with
            | true => rfl
            | false => exact absurd (Or.inr ⟨hg, hx⟩) hcond
          rw [if_pos ⟨hl, hg⟩, hpl, hpg]
          rfl
  · rw [editSubmit_eq]
    by_cases hc : effCoord latS ≠ "" ∧ effCoord lngS ≠ ""
    · rw [if_pos hc]
      by_cases hp : pyFloatOk (effCoord lngS) = false
          ∨ pyFloatOk (effCoord latS) = false
      · rw [if_pos hp]
        constructor
        · intro _
          exact ⟨hc.1, hc.2, hp.elim Or.inr Or.inl⟩
        · intro _; exact ⟨_, rfl⟩
      · rw [if_neg hp]
        constructor
        · intro ⟨e, he⟩; cases he
        · intro hcontra
          exact absurd (hcontra.2.2.elim Or.inr Or.inl) hp
    · rw [if_neg hc]
      constructor
      · intro ⟨e, he⟩; cases he
      · intro hcontra
        exact absurd ⟨hcontra.1, hcontra.2.1⟩ hc
  · intro f hf
    rw [editSubmit_eq] at hf
    split at hf
    · split at hf
      · cases hf
      · rename_i hp
        cases hf
        have hpl : pyFloatOk (effCoord latS) = true := by
          cases hx : pyFloatOk (effCoord latS) with
          | true => rfl
          | false => exact absurd (Or.inr hx) hp
        have hpg : pyFloatOk (effCoord lngS) = true := by
          cases hx : pyFloatOk (effCoord lngS) with
          | true => rfl
          | false => exact absurd (Or.inl hx) hp
        rw [hpl, hpg]
        rfl
    · rename_i hc
      cases hf
      rcases not_and_or.mp hc with h | h
      · have hz : effCoord latS = "" := by simpa using h
        rw [hz, pyFloatOk_empty, Bool.false_and]
        rfl
      · have hz : effCoord lngS = "" := by simpa using h
        rw [hz, pyFloatOk_empty, Bool.and_false]
        rfl

theorem c2_witness :
    (Feature.mk [("Search_Terms", PyVal.pyStr "")]
        (some ("-87.6", "41.5"))).geometry.isSome
      = (pyFloatOk "41.5" && pyFloatOk "-87.6")
    ∧ (Feature.mk [("Search_Terms", PyVal.pyStr "")]
        (some ("-87.6", "41.5"))).geometry.isSome
      = (pyFloatOk (effCoord "41.5") && pyFloatOk (effCoord "-87.6")) :=
  ⟨(c2_geometry_paths "41.5" "-87.6" [] []).2.1
      (Feature.mk [("Search_Terms", PyVal.pyStr "")] (some ("-87.6", "41.5"))) rfl,
    (c2_geometry_paths "41.5" "-87.6" [] []).2.2.2
      (Feature.mk [("Search_Terms", PyVal.pyStr "")] (some ("-87.6", "41.5"))) rfl⟩

-- ──────────────────────────────────────────────────────────────────────
-- Edit-page service-flag composition (src/main.py, show_edit_page,
-- binary fields grid)
-- ──────────────────────────────────────────────────────────────────────

/-- Python int() of a string: optional surrounding whitespace, one
optional sign, then at least one ASCII digit (digit-group underscores are
not modelled; the properties below do not depend on them). Any other
shape raises ValueError. -/
def pyIntOfStr (s : String) : Except String Int :=
  let cs := (pyStrip s).data
  let signed : Bool × List Char :=
    match cs with
    | c :: r => if c = '-' then (true, r) else if c = '+' then (false, r) else (false, cs)
    | [] => (false, [])
  if signed.2.isEmpty then
    Except.error "invalid literal for int() with base 10"
  else if signed.2.all Char.isDigit then
    let n : Nat := signed.2.foldl (fun acc c => acc * 10 + (c.toNat - 48)) 0
    Except.ok (if signed.1 then -(n : Int) else (n : Int))
  else Except.error "invalid literal for int() with base 10"

/-- Python int() on a PyVal: ints pass through, booleans become 0 or 1,
strings are parsed, None raises TypeError. -/
def pyIntOfVal : PyVal → Except String Int
  | PyVal.pyInt n => Except.ok n
  | PyVal.pyBool b => Except.ok (if b then 1 else 0)
  | PyVal.pyStr s => pyIntOfStr s
  | PyVal.none => Except.error "int() argument must not be None"

/-- The default-index computation of the flag grid: raw values equal to
None or the empty string give 0, everything else goes through int(),
which can raise. -/
def flagDefault (raw : PyVal) : Except String Int :=
  if raw = PyVal.none ∨ raw = PyVal.pyStr "" then Except.ok 0
  else pyIntOfVal raw

/-- Lexicographic code-point comparison of character lists, the order the
Python sorted builtin uses on strings. -/
def charsLe : List Char → List Char → Bool
  | [], _ => true
  | _ :: _, [] => false
  | a :: as, b :: bs =>
    if a.toNat < b.toNat then true
    else if b.toNat < a.toNat then false
    else charsLe as bs

/-- String comparison for the sorted builtin. -/
def strLe (a b : String) : Bool := charsLe a.data b.data

/-- Insert one element into an already sorted list. -/
def insertSorted (cmp : String → String → Bool) (x : String) :
    List String → List String
  | [] => [x]
  | y :: ys => if cmp x y then x :: y :: ys else y :: insertSorted cmp x ys

/-- Insertion sort with a boolean comparator, the model of sorted(...). -/
def sortByCmp (cmp : String → String → Bool) (l : List String) : List String :=
  l.foldr (insertSorted cmp) []

/-- The iteration order of the flag grid: sorted(list(binary_fields)). -/
def sortedBinaryFields : List String := sortByCmp strLe binary_fields_list

theorem insertSorted_perm (cmp : String → String → Bool) (x : String) :
    ∀ l : List String, (insertSorted cmp x l).Perm (x :: l) := by
  intro l
  induction l with
  | nil => exact List.Perm.refl _
  | cons y ys ih =>
    unfold insertSorted
    by_cases h : cmp x y
    · rw [if_pos h]
    · rw [if_neg h]
      exact (ih.cons y).trans (List.Perm.swap x y ys)

theorem sortByCmp_perm (cmp : String → String → Bool) :
    ∀ l : List String, (sortByCmp cmp l).Perm l := by
  intro l
  induction l with
  | nil => exact List.Perm.refl _
  | cons a as ih =>
    show (insertSorted cmp a (sortByCmp cmp as)).Perm (a :: as)
    exact (insertSorted_perm cmp a (sortByCmp cmp as)).trans (ih.cons a)

theorem mem_sortedBinaryFields {k : String} (h : k ∈ binary_fields_list) :
    k ∈ sortedBinaryFields :=
  (sortByCmp_perm strLe binary_fields_list).mem_iff.mpr h

/-- The flag grid loop of show_edit_page, over a key list: for each key,
take the stored raw value (absent keys default to the int 0), compute the
default index through flagDefault (which can raise), require the index to
be a valid position in the options list of the selectbox (the selectbox
raises otherwise), and record the option the user selection picks from
the two options 0 and 1. -/
def composeGo (pick : String → Fin 2) (record : AttrMap) :
    List String → Except String AttrMap
  | [] => Except.ok []
  | k :: ks =>
    match flagDefault ((getAttr record k).getD (PyVal.pyInt 0)) with
    | Except.error e => Except.error e
    | Except.ok d =>
      if d = 0 ∨ d = 1 then
        match composeGo pick record ks with
        | Except.error e => Except.error e
        | Except.ok rest =>
          Except.ok ((k, PyVal.pyInt (((pick k : Fin 2) : Nat) : Int)) :: rest)
      else Except.error "Selectbox index must be 0 or 1"

/-- The composed flag entries of the edit form, in the sorted iteration
order of the source. -/
def composeBinaryEdits (pick : String → Fin 2) (record : AttrMap) :
    Except String AttrMap :=
  composeGo pick record sortedBinaryFields

/-- True exactly when the computation did not raise. -/
def exceptOk : Except String AttrMap → Bool
  | Except.ok _ => true
  | Except.error _ => false

theorem composeGo_mem (pick : String → Fin 2) (record : AttrMap) :
    ∀ (ks : List String) (m : AttrMap), composeGo pick record ks = Except.ok m →
      ∀ k ∈ ks, ∃ v, getAttr m k = some v
        ∧ (v = PyVal.pyInt 0 ∨ v = PyVal.pyInt 1) := by
  intro ks
  induction ks with
  | nil =>
    intro m _ k hk
    exact absurd hk (List.not_mem_nil k)
  | cons k0 ks ih =>
    intro m hm k hk
    unfold composeGo at hm
    split at hm
    · cases hm
    · split at hm
      · split at hm
        · cases hm
        · rename_i rest hrest
          cases hm
          by_cases hkk : k0 = k
          · refine ⟨PyVal.pyInt (((pick k0 : Fin 2) : Nat) : Int), ?_, ?_⟩
            · show (if k0 = k then some _ else getAttr rest k) = _
              rw [if_pos hkk]
            · match hfin : (pick k0 : Fin 2) with
              | ⟨0, _⟩ => left; rfl
              | ⟨1, _⟩ => right; rfl
          · have hks : k ∈ ks := by
              rcases List.mem_cons.mp hk with h | h
              · exact absurd h.symm hkk
              · exact h
            obtain ⟨v, hv1, hv2⟩ := ih rest hrest k hks
            refine ⟨v, ?_, hv2⟩
            show (if k0 = k then some _ else getAttr rest k) = some v
            rw [if_neg hkk]
            exact hv1
      · cases hm

/-- Claim C3 counterexample: the fixed service-flag list has 30 keys, not
29; and editing a record whose Transportation flag stores the non-numeric
string "abc" does not default the flag to 0 — int() raises and the flag
grid fails, whatever the user selections are. -/
theorem c3_counterexample :
    binary_fields_list.length = 30
    ∧ exceptOk (composeBinaryEdits (fun _ => (0 : Fin 2))
        [("Transportation", PyVal.pyStr "abc")]) = false
    ∧ flagDefault (PyVal.pyStr "abc") =
        Except.error "invalid literal for int() with base 10" := by
  refine ⟨by decide, rfl, rfl⟩

/-- Claim C3 (amended): when the flag grid of the edit page renders
without raising, the composed attribute map contains every one of the 30
fixed service-flag keys with an integer value 0 or 1; a stored flag value
that is absent, None, or the empty string yields a default index of 0; a
non-numeric stored value is not defaulted — int() raises and the edit
page fails instead. -/
theorem c3_flag_composition :
    ∀ (pick : String → Fin 2) (record : AttrMap) (m : AttrMap),
      composeBinaryEdits pick record = Except.ok m →
      (∀ k ∈ binary_fields_list, ∃ v, getAttr m k = some v
        ∧ (v = PyVal.pyInt 0 ∨ v = PyVal.pyInt 1))
      ∧ flagDefault PyVal.none = Except.ok 0
      ∧ flagDefault (PyVal.pyStr "") = Except.ok 0
      ∧ flagDefault (PyVal.pyInt 0) = Except.ok 0
      ∧ binary_fields_list.length = 30 := by
  intro pick record m hm
  refine ⟨?_, rfl, rfl, rfl, by decide⟩
  intro k hk
  exact composeGo_mem pick record sortedBinaryFields m hm k (mem_sortedBinaryFields hk)

theorem c3_witness :
    ∃ v, getAttr (sortedBinaryFields.map (fun k => (k, PyVal.pyInt 0)))
        "Transportation" = some v ∧ (v = PyVal.pyInt 0 ∨ v = PyVal.pyInt 1) :=
  (c3_flag_composition (fun _ => (0 : Fin 2)) []
    (sortedBinaryFields.map (fun k => (k, PyVal.pyInt 0))) rfl).1 "Transportation"
    (by decide)
